import Mathlib

/-!
# Verification of the movie-planner caching layer

Shallow embedding of the go-movie-planner repository: the read-through /
write-invalidate cache decorators (the in-memory title-keyed `CacheAdapter`
of `internal/adapters/cache/cache.go` and the id-keyed `RedisCacheAdapter`),
the thin `MovieService`, and the error classification of the TMDb and
Postgres adapters.

Modelling conventions:
* Go instants (`time.Time`) are natural numbers; `time.Since t` at instant
  `now` is `now - t` (truncated `Nat` subtraction).
* `float64` ratings are rationals (`Rat`); the thresholds 7.5 and 5.0 are
  exactly representable, so the comparisons agree with the Go ones on every
  value JSON can produce.
* `encoding/json` marshalling of a `Movie` is modelled by an injective codec
  into a `Blob` type: `Blob.movie m` is the serialized form of `m`, and
  `Blob.corrupt s` stands for any byte string that does not decode to a
  movie.  Faults of the external libraries (a Redis transport error on
  GET/SET/DEL, a marshal failure) are injected explicitly via `RedisFaults`.
* Go's `(value, error)` returns are `Except GoError`.
-/

namespace MoviePlanner

/-- The two sentinel errors of `internal/errs/errors.go` (`ErrNotFound`,
`ErrProviderFailure`, the latter wrapped with detail text by
`fmt.Errorf("%w: ...")`), a cancellation condition, and `generic` for any
other Go error value (carrying its message). -/
inductive GoError
  | notFound
  | providerFailure (detail : String)
  | cancelled
  | generic (msg : String)
deriving Repr, DecidableEq

/-- The domain entity `ports.Movie`: title, overview, release date, numeric
rating, poster reference and ordered recommendation titles (the repository
variant also carries a numeric id). -/
structure Movie where
  id : Int := 0
  title : String := ""
  overview : String := ""
  releaseDate : String := ""
  rating : Rat := 0
  posterURL : String := ""
  recommendations : List String := []
deriving Repr, DecidableEq

/-! ## In-memory cache decorator (`internal/adapters/cache/cache.go`) -/

/-- `cacheEntry`: a cached movie together with the instant it was stored. -/
structure CacheEntry where
  movie : Movie
  createdAt : Nat
deriving Repr, DecidableEq

/-- The state of `CacheAdapter`: the `cache` map (title → entry; a Go map,
so at most one entry per key) and the immutable `ttl`.  The wrapped
provider `next` is passed to `searchMovie` as a function argument. -/
structure CacheAdapter where
  cache : String → Option CacheEntry
  ttl : Nat

/-- The observable outcome of one `SearchMovie` call: the returned
`(*Movie, error)`, the cache map after the call, and whether the wrapped
provider was invoked. -/
structure SearchOutcome where
  result : Except GoError Movie
  cache : String → Option CacheEntry
  nextCalled : Bool

/-- `CacheAdapter.SearchMovie`: look the title up under the mutex; on a
fresh hit (`time.Since(entry.createdAt) < ttl`) return the stored movie
without calling `next`; otherwise call `next.SearchMovie`, propagate an
error without touching the cache, and on success store `{movie, now}` at
the title (overwriting any prior entry) and return the movie. -/
def CacheAdapter.searchMovie (a : CacheAdapter)
    (next : String → Except GoError Movie) (now : Nat) (title : String) :
    SearchOutcome :=
  let hit : Option Movie :=
    match a.cache title with
    | some entry => if now - entry.createdAt < a.ttl then some entry.movie else none
    | none => none
  match hit with
  | some m => ⟨.ok m, a.cache, false⟩
  | none =>
    match next title with
    | .error e => ⟨.error e, a.cache, true⟩
    | .ok m =>
      ⟨.ok m, Function.update a.cache title (some ⟨m, now⟩), true⟩

/-! ## Redis cache decorator (`RedisCacheAdapter`) -/

/-- A serialized cache value.  `Blob.movie m` is the JSON produced by
`json.Marshal` for `m` (the codec is injective); `Blob.corrupt s` is any
stored byte string that `json.Unmarshal` rejects. -/
inductive Blob
  | movie (m : Movie)
  | corrupt (s : String)
deriving Repr, DecidableEq

/-- `json.Unmarshal` into a `ports.Movie`, as the partial inverse of the
codec: succeeds exactly on marshalled movies. -/
def unmarshalMovie : Blob → Option Movie
  | .movie m => some m
  | .corrupt _ => none

/-- `json.Marshal` of a movie; `fault` injects the (theoretical) marshal
failure the code guards against. -/
def marshalMovie (fault : Bool) (m : Movie) : Option Blob :=
  if fault then none else some (.movie m)

/-- One Redis key: a value together with the absolute instant at which
Redis expires it (set to `now + ttl` by `SET ... EX ttl`). -/
structure RedisEntry where
  value : Blob
  expireAt : Nat
deriving Repr, DecidableEq

/-- The Redis keyspace: string key → entry. -/
def RedisStore := String → Option RedisEntry

/-- Fault injection for the external collaborators of the Redis decorator:
a transport failure of `client.Get`, a `json.Marshal` failure, a transport
failure of `client.Set`, a transport failure of `client.Del`. -/
structure RedisFaults where
  getFault : Bool := false
  marshalFault : Bool := false
  setFault : Bool := false
  delFault : Bool := false
deriving Repr, DecidableEq

/-- `redis.Nil` (key absent or expired) versus any other client error. -/
inductive RedisErr
  | nil
  | transport
deriving Repr, DecidableEq

/-- `client.Get(ctx, key).Result()`: a transport fault is an error; an
absent or already-expired key yields `redis.Nil`; otherwise the stored
value. -/
def redisGet (st : RedisStore) (fault : Bool) (now : Nat) (key : String) :
    Except RedisErr Blob :=
  if fault then .error .transport
  else
    match st key with
    | none => .error .nil
    | some e => if now < e.expireAt then .ok e.value else .error .nil

/-- The Redis cache key for a movie id: `fmt.Sprintf("movie:%d", id)`. -/
def movieKey (id : Int) : String := "movie:" ++ toString id

/-- Outcome of one `GetMovieByID` call: the returned `(*Movie, error)`,
the keyspace after the call, and whether the wrapped repository was
invoked. -/
structure FetchOutcome where
  result : Except GoError Movie
  store : RedisStore
  nextCalled : Bool

/-- `RedisCacheAdapter.GetMovieByID`: `GET movie:<id>`; if that returned
without error **and** the payload unmarshals, return it (cache hit).
Otherwise fall through: call `next.GetMovieByID`; on error propagate it and
write nothing; on success marshal the movie (on marshal failure only log
and return the movie), `SET` it with expiry `ttl` (on SET failure only
log), and return the movie. -/
def RedisCacheAdapter.getMovieByID (st : RedisStore) (ttl : Nat)
    (faults : RedisFaults) (next : Int → Except GoError Movie)
    (now : Nat) (id : Int) : FetchOutcome :=
  let key := movieKey id
  let fetch : FetchOutcome :=
    match next id with
    | .error e => ⟨.error e, st, true⟩
    | .ok m =>
      match marshalMovie faults.marshalFault m with
      | none => ⟨.ok m, st, true⟩
      | some blob =>
        if faults.setFault then ⟨.ok m, st, true⟩
        else ⟨.ok m, Function.update st key (some ⟨blob, now + ttl⟩), true⟩
  match redisGet st faults.getFault now key with
  | .ok cached =>
    match unmarshalMovie cached with
    | some m => ⟨.ok m, st, false⟩
    | none => fetch
  | .error _ => fetch

/-- Outcome of one `UpdateMovie`/`DeleteMovie` call: the returned `error`
and the keyspace after the call. -/
structure MutateOutcome where
  result : Except GoError Unit
  store : RedisStore

/-- `RedisCacheAdapter.UpdateMovie`: delegate to `next.UpdateMovie`; on
error return it at once, cache untouched; on success `DEL movie:<id>` (a
DEL failure is only logged) and return nil. -/
def RedisCacheAdapter.updateMovie (st : RedisStore)
    (faults : RedisFaults) (nextUpdate : Int → Movie → Except GoError Unit)
    (id : Int) (movie : Movie) : MutateOutcome :=
  match nextUpdate id movie with
  | .error e => ⟨.error e, st⟩
  | .ok _ =>
    if faults.delFault then ⟨.ok (), st⟩
    else ⟨.ok (), Function.update st (movieKey id) none⟩

/-- `RedisCacheAdapter.DeleteMovie`: same two-phase pattern as update. -/
def RedisCacheAdapter.deleteMovie (st : RedisStore)
    (faults : RedisFaults) (nextDelete : Int → Except GoError Unit)
    (id : Int) : MutateOutcome :=
  match nextDelete id with
  | .error e => ⟨.error e, st⟩
  | .ok _ =>
    if faults.delFault then ⟨.ok (), st⟩
    else ⟨.ok (), Function.update st (movieKey id) none⟩

/-- `RedisCacheAdapter.CreateMovie`: pure delegation, no cache logic. -/
def RedisCacheAdapter.createMovie (st : RedisStore)
    (nextCreate : Movie → Except GoError Int) (movie : Movie) :
    Except GoError Int × RedisStore :=
  (nextCreate movie, st)

/-- `RedisCacheAdapter.GetAllMovies`: pure delegation, no cache logic. -/
def RedisCacheAdapter.getAllMovies (st : RedisStore)
    (nextAll : Unit → Except GoError (List Movie)) :
    Except GoError (List Movie) × RedisStore :=
  (nextAll (), st)

/-! ## Domain service (`internal/service/service.go`) -/

/-- The favorable advice string of `MovieService.GetMovie`. -/
def adviceHigh : String :=
  "It is a very good choice! A high rated movie, which is recommended to watch."

/-- The neutral advice string of `MovieService.GetMovie`. -/
def adviceMid : String :=
  "A good option for a night, but do not expect something perfect."

/-- The unfavorable advice string of `MovieService.GetMovie`. -/
def adviceLow : String :=
  "A controversial choice. Not really recommended to watch, but you still can do so."

/-- The advice computation of `MovieService.GetMovie`: `rating >= 7.5`,
else `rating >= 5.0`, else the low branch. -/
def adviceFor (rating : Rat) : String :=
  if rating ≥ 7.5 then adviceHigh
  else if rating ≥ 5.0 then adviceMid
  else adviceLow

/-- `service.FinalMovieData`: the embedded movie plus the derived advice. -/
structure FinalMovieData where
  movie : Movie
  advice : String
deriving Repr, DecidableEq

/-- `MovieService.GetMovie`: call the provider's `SearchMovie`; on error
pass it on; on success return the movie's fields plus the advice derived
from its rating. -/
def MovieService.getMovie (provider : String → Except GoError Movie)
    (title : String) : Except GoError FinalMovieData :=
  match provider title with
  | .error e => .error e
  | .ok movie => .ok ⟨movie, adviceFor movie.rating⟩

/-! ## TMDb adapter error classification (`TMDbAdapter.searchByName`) -/

/-- A raw TMDb search result (`tmdbMovie`). -/
structure TmdbMovie where
  id : Int := 0
  title : String := ""
  overview : String := ""
  releaseDate : String := ""
  voteAverage : Rat := 0
  posterPath : String := ""
deriving Repr, DecidableEq

/-- What the HTTP round trip of `searchByName` produced: a transport
error from `client.Get`, or a status code together with the outcome of
JSON-decoding the body into `tmdbSearchResponse.Results`. -/
inductive HttpOutcome
  | transportError (msg : String)
  | response (status : Nat) (body : Except String (List TmdbMovie))
deriving Repr

/-- `TMDbAdapter.searchByName`: a transport error or a decode failure is
wrapped into `ErrProviderFailure`; HTTP 404 and an empty result list are
`ErrNotFound`; any other non-200 status is `ErrProviderFailure`; otherwise
the first (most relevant) result is returned. -/
def TMDbAdapter.searchByName (outcome : HttpOutcome) :
    Except GoError TmdbMovie :=
  match outcome with
  | .transportError msg => .error (.providerFailure msg)
  | .response status body =>
    if status = 404 then .error .notFound
    else if status ≠ 200 then
      .error (.providerFailure ("TMDb API returned non-200 status: " ++ toString status))
    else
      match body with
      | .error msg =>
        .error (.providerFailure ("failed to decode TMDb response: " ++ msg))
      | .ok results =>
        match results with
        | [] => .error .notFound
        | r :: _ => .ok r

/-! ## Postgres adapter error classification (`PostgresAdapter.GetMovieByID`) -/

/-- What `QueryRow(...).Scan(...)` produced: no matching row
(`pgx.ErrNoRows`), some other pgx/storage error, or a row (the movie
columns plus the comma-joined recommendations string). -/
inductive PgOutcome
  | noRows
  | pgError (msg : String)
  | row (m : Movie) (recommendations : String)
deriving Repr, DecidableEq

/-- `PostgresAdapter.GetMovieByID`: `pgx.ErrNoRows` becomes
`errs.ErrNotFound`; every other scan error is returned unchanged; a row is
returned with the recommendations column split on commas. -/
def PostgresAdapter.getMovieByID (outcome : PgOutcome) :
    Except GoError Movie :=
  match outcome with
  | .noRows => .error .notFound
  | .pgError msg => .error (.generic msg)
  | .row m recs => .ok { m with recommendations := recs.splitOn "," }

/-! ## Interleaving semantics of concurrent `SearchMovie` calls

`SearchMovie` holds the mutex only for the duration of each individual map
access: the read of `a.cache[title]`, the call to `next.SearchMovie`, and
the write of `a.cache[title]` are three separate atomic steps, with the
lock released in between.  We model `n` goroutines all fetching the same
uncached key as a small-step transition system in which those three steps
of different goroutines interleave arbitrarily. -/

/-- The program counter of one goroutine running `SearchMovie`:
before the locked map read; after a miss (about to call `next`); after a
successful `next` call (about to take the lock and write); returned. -/
inductive TStat
  | start
  | needFetch
  | gotMovie (m : Movie)
  | done (r : Except GoError Movie)
deriving Repr

/-- Global state of `n` goroutines sharing one cache map: the map, each
goroutine's program counter, and the total number of calls that have
reached the wrapped provider. -/
structure ConcState (n : Nat) where
  cache : String → Option CacheEntry
  threads : Fin n → TStat
  calls : Nat

/-- Initial state: the key is uncached, every goroutine is at its locked
read, no provider call has happened. -/
def ConcState.init (n : Nat) : ConcState n :=
  ⟨fun _ => none, fun _ => .start, 0⟩

/-- One atomic step of the interleaving.  Each constructor is one
lock-protected map access or one un-locked provider call, exactly the
granularity at which `SearchMovie` releases the mutex. -/
inductive ConcStep (next : String → Except GoError Movie) (ttl now : Nat)
    (key : String) {n : Nat} : ConcState n → ConcState n → Prop
  | readHit (s : ConcState n) (i : Fin n) (e : CacheEntry)
      (hi : s.threads i = .start)
      (he : s.cache key = some e) (hf : now - e.createdAt < ttl) :
      ConcStep next ttl now key s
        ⟨s.cache, Function.update s.threads i (.done (.ok e.movie)), s.calls⟩
  | readMiss (s : ConcState n) (i : Fin n)
      (hi : s.threads i = .start)
      (hm : ∀ e, s.cache key = some e → ttl ≤ now - e.createdAt) :
      ConcStep next ttl now key s
        ⟨s.cache, Function.update s.threads i .needFetch, s.calls⟩
  | fetchOk (s : ConcState n) (i : Fin n) (m : Movie)
      (hi : s.threads i = .needFetch) (hn : next key = .ok m) :
      ConcStep next ttl now key s
        ⟨s.cache, Function.update s.threads i (.gotMovie m), s.calls + 1⟩
  | fetchErr (s : ConcState n) (i : Fin n) (e : GoError)
      (hi : s.threads i = .needFetch) (hn : next key = .error e) :
      ConcStep next ttl now key s
        ⟨s.cache, Function.update s.threads i (.done (.error e)), s.calls + 1⟩
  | writeBack (s : ConcState n) (i : Fin n) (m : Movie)
      (hi : s.threads i = .gotMovie m) :
      ConcStep next ttl now key s
        ⟨Function.update s.cache key (some ⟨m, now⟩),
         Function.update s.threads i (.done (.ok m)), s.calls⟩

/-- 1 once the goroutine's provider call may have happened, 0 before. -/
def TStat.weight : TStat → Nat
  | .start => 0
  | .needFetch => 0
  | .gotMovie _ => 1
  | .done _ => 1

/-- Inductive invariant of the interleaving when the provider answers the
key with `m`: the shared map holds nothing for the key or exactly the
entry `{m, now}`; every in-flight fetched value is `m`; every returned
goroutine saw the entry present and returned `m` successfully. -/
def ConcInv (m : Movie) (now : Nat) (key : String) {n : Nat} (s : ConcState n) : Prop :=
  (s.cache key = none ∨ s.cache key = some ⟨m, now⟩)
  ∧ (∀ i m2, s.threads i = .gotMovie m2 → m2 = m)
  ∧ (∀ i r, s.threads i = .done r → s.cache key = some ⟨m, now⟩ ∧ r = .ok m)

/-! ## Helper definitions for concrete instances -/

/-- No injected cache-backend fault: the Redis GET/SET/DEL and the JSON
marshal all succeed. -/
def noFaults : RedisFaults := ⟨false, false, false, false⟩

/-- Whether a fetch result is the `ErrProviderFailure` condition (an error
that wraps `errs.ErrProviderFailure`). -/
def isProviderFailureErr {α : Type} : Except GoError α → Bool
  | .error (.providerFailure _) => true
  | _ => false

/-- A concrete movie used to instantiate the theorems. -/
def testMovie : Movie :=
  { id := 27205, title := "Inception", overview := "A thief...",
    releaseDate := "2010-07-16", rating := (8 : Rat),
    posterURL := "https://image.tmdb.org/p", recommendations := ["The Matrix"] }

/-- A second concrete movie (a pre-update value) for the witnesses. -/
def testMovie2 : Movie :=
  { id := 603, title := "The Matrix", overview := "Neo...",
    releaseDate := "1999-03-31", rating := (9 : Rat),
    posterURL := "https://image.tmdb.org/m", recommendations := [] }

/-- A concrete in-memory adapter state holding `testMovie` under
"Inception", stored at instant 0, with a TTL of 5. -/
def testAdapter : CacheAdapter :=
  ⟨Function.update (fun _ => none) "Inception" (some ⟨testMovie, 0⟩), 5⟩

/-- A concrete Redis keyspace holding the marshalled `testMovie` under
`movie:27205`, expiring at instant 5. -/
def testStore : RedisStore :=
  Function.update (fun _ => none) (movieKey 27205) (some ⟨.movie testMovie, 5⟩)

/-- A concrete Redis keyspace holding a corrupt payload under
`movie:27205`, expiring at instant 5. -/
def corruptStore : RedisStore :=
  Function.update (fun _ => none) (movieKey 27205) (some ⟨.corrupt "not valid json", 5⟩)

/-- An in-memory adapter with an empty cache map and a TTL of 5. -/
def emptyAdapter : CacheAdapter := ⟨fun _ => none, 5⟩

/-- An empty Redis keyspace. -/
def emptyStore : RedisStore := fun _ => none

/-- A one-goroutine interleaving, state 0: the initial state. -/
def c7S0 : ConcState 1 := ConcState.init 1

/-- State 1: the goroutine read the map under the lock and missed. -/
def c7S1 : ConcState 1 :=
  ⟨c7S0.cache, Function.update c7S0.threads 0 .needFetch, c7S0.calls⟩

/-- State 2: the goroutine called the provider (lock released) and got
`testMovie`. -/
def c7S2 : ConcState 1 :=
  ⟨c7S1.cache, Function.update c7S1.threads 0 (.gotMovie testMovie), c7S1.calls + 1⟩

/-- State 3: the goroutine wrote the entry under the lock and returned. -/
def c7FinalState : ConcState 1 :=
  ⟨Function.update c7S2.cache "Inception" (some ⟨testMovie, 0⟩),
   Function.update c7S2.threads 0 (.done (.ok testMovie)), c7S2.calls⟩

/-! ## Helper lemmas -/

/-- A fresh in-memory hit returns the stored movie without calling `next`
and without touching the map. -/
theorem searchMovie_hit (a : CacheAdapter) (next : String → Except GoError Movie)
    (now : Nat) (title : String) (e : CacheEntry)
    (he : a.cache title = some e) (hf : now - e.createdAt < a.ttl) :
    a.searchMovie next now title = ⟨.ok e.movie, a.cache, false⟩ := by
  simp [CacheAdapter.searchMovie, he, hf]

/-- On an in-memory miss with a successful upstream fetch, the movie is
returned and stored at the title with timestamp `now`. -/
theorem searchMovie_miss_ok (a : CacheAdapter) (next : String → Except GoError Movie)
    (now : Nat) (title : String) (m : Movie)
    (hmiss : ∀ e, a.cache title = some e → a.ttl ≤ now - e.createdAt)
    (hm : next title = .ok m) :
    a.searchMovie next now title =
      ⟨.ok m, Function.update a.cache title (some ⟨m, now⟩), true⟩ := by
  cases hc : a.cache title with
  | none => simp [CacheAdapter.searchMovie, hc, hm]
  | some e =>
    have h1 := hmiss e hc
    simp [CacheAdapter.searchMovie, hc, Nat.not_lt.mpr h1, hm]

/-- On an in-memory miss with a failing upstream fetch, the error is
propagated verbatim and the map is untouched. -/
theorem searchMovie_miss_error (a : CacheAdapter) (next : String → Except GoError Movie)
    (now : Nat) (title : String) (err : GoError)
    (hmiss : ∀ e, a.cache title = some e → a.ttl ≤ now - e.createdAt)
    (hm : next title = .error err) :
    a.searchMovie next now title = ⟨.error err, a.cache, true⟩ := by
  cases hc : a.cache title with
  | none => simp [CacheAdapter.searchMovie, hc, hm]
  | some e =>
    have h1 := hmiss e hc
    simp [CacheAdapter.searchMovie, hc, Nat.not_lt.mpr h1, hm]

/-- On an in-memory miss the wrapped provider is always invoked. -/
theorem searchMovie_miss_called (a : CacheAdapter) (next : String → Except GoError Movie)
    (now : Nat) (title : String)
    (hmiss : ∀ e, a.cache title = some e → a.ttl ≤ now - e.createdAt) :
    (a.searchMovie next now title).nextCalled = true := by
  cases hn : next title with
  | error err => rw [searchMovie_miss_error a next now title err hmiss hn]
  | ok m => rw [searchMovie_miss_ok a next now title m hmiss hn]

/-- If the key is absent or expired, the Redis GET yields an error
(`redis.Nil` or, under an injected fault, a transport error). -/
theorem redisGet_miss (st : RedisStore) (g : Bool) (now : Nat) (key : String)
    (hmiss : ∀ e, st key = some e → e.expireAt ≤ now) :
    ∃ er, redisGet st g now key = .error er := by
  cases g with
  | true => exact ⟨.transport, rfl⟩
  | false =>
    cases hc : st key with
    | none => exact ⟨.nil, by simp [redisGet, hc]⟩
    | some e =>
      have h1 := hmiss e hc
      exact ⟨.nil, by simp [redisGet, hc, Nat.not_lt.mpr h1]⟩

/-- A fresh, well-formed Redis hit returns the stored movie without
calling the wrapped repository and without touching the keyspace. -/
theorem getMovieByID_hit (st : RedisStore) (ttl : Nat)
    (next : Int → Except GoError Movie) (now : Nat) (id : Int) (m : Movie) (t : Nat)
    (he : st (movieKey id) = some ⟨.movie m, t⟩) (ht : now < t) :
    RedisCacheAdapter.getMovieByID st ttl noFaults next now id = ⟨.ok m, st, false⟩ := by
  simp [RedisCacheAdapter.getMovieByID, redisGet, noFaults, he, ht, unmarshalMovie]

/-- On a Redis miss with a failing upstream fetch, the error is propagated
verbatim and the keyspace is untouched, whatever backend faults are
injected. -/
theorem getMovieByID_miss_error (st : RedisStore) (ttl : Nat) (faults : RedisFaults)
    (next : Int → Except GoError Movie) (now : Nat) (id : Int) (err : GoError)
    (hmiss : ∀ e, st (movieKey id) = some e → e.expireAt ≤ now)
    (hm : next id = .error err) :
    RedisCacheAdapter.getMovieByID st ttl faults next now id = ⟨.error err, st, true⟩ := by
  obtain ⟨er, hget⟩ := redisGet_miss st faults.getFault now (movieKey id) hmiss
  simp [RedisCacheAdapter.getMovieByID, hget, hm]

/-- On a fault-free Redis miss with a successful upstream fetch, the movie
is returned and its marshalled form stored with expiry `now + ttl`. -/
theorem getMovieByID_miss_ok (st : RedisStore) (ttl : Nat)
    (next : Int → Except GoError Movie) (now : Nat) (id : Int) (m : Movie)
    (hmiss : ∀ e, st (movieKey id) = some e → e.expireAt ≤ now)
    (hm : next id = .ok m) :
    RedisCacheAdapter.getMovieByID st ttl noFaults next now id =
      ⟨.ok m, Function.update st (movieKey id) (some ⟨.movie m, now + ttl⟩), true⟩ := by
  obtain ⟨er, hget⟩ := redisGet_miss st false now (movieKey id) hmiss
  simp [RedisCacheAdapter.getMovieByID, noFaults, hget, hm, marshalMovie]

/-- On a Redis miss the wrapped repository is always invoked, whatever
backend faults are injected. -/
theorem getMovieByID_miss_called (st : RedisStore) (ttl : Nat) (faults : RedisFaults)
    (next : Int → Except GoError Movie) (now : Nat) (id : Int)
    (hmiss : ∀ e, st (movieKey id) = some e → e.expireAt ≤ now) :
    (RedisCacheAdapter.getMovieByID st ttl faults next now id).nextCalled = true := by
  obtain ⟨er, hget⟩ := redisGet_miss st faults.getFault now (movieKey id) hmiss
  cases hn : next id with
  | error err => simp [RedisCacheAdapter.getMovieByID, hget, hn]
  | ok m =>
    cases hmf : faults.marshalFault with
    | true => simp [RedisCacheAdapter.getMovieByID, hget, hn, marshalMovie, hmf]
    | false =>
      cases hsf : faults.setFault with
      | true => simp [RedisCacheAdapter.getMovieByID, hget, hn, marshalMovie, hmf, hsf]
      | false => simp [RedisCacheAdapter.getMovieByID, hget, hn, marshalMovie, hmf, hsf]

/-- Staleness is monotone in time: a key that misses at `now` still
misses (is absent or at least as old) at any later instant. -/
theorem miss_mono {α : Type} (f : α → Nat) (lookup : Option α) (ttl now now2 : Nat)
    (h12 : now ≤ now2) (hmiss : ∀ e, lookup = some e → ttl ≤ now - f e) :
    ∀ e, lookup = some e → ttl ≤ now2 - f e := by
  intro e he
  exact le_trans (hmiss e he) (Nat.sub_le_sub_right h12 (f e))

/-- The three advice strings are pairwise distinct. -/
theorem advice_distinct :
    adviceHigh ≠ adviceMid ∧ adviceHigh ≠ adviceLow ∧ adviceMid ≠ adviceLow := by
  refine ⟨?_, ?_, ?_⟩ <;> decide

/-- The advice computation hits each branch exactly on the spec's rating
interval. -/
theorem adviceFor_spec (r : Rat) :
    (adviceFor r = adviceHigh ↔ 7.5 ≤ r)
    ∧ (adviceFor r = adviceMid ↔ 5 ≤ r ∧ r < 7.5)
    ∧ (adviceFor r = adviceLow ↔ r < 5) := by
  obtain ⟨hm, hl, ml⟩ := advice_distinct
  have e5 : (5.0 : Rat) = 5 := by norm_num
  unfold adviceFor
  simp only [ge_iff_le, e5]
  rcases le_or_lt (7.5 : Rat) r with h1 | h1
  · have h2 : (5 : Rat) ≤ r := le_trans (by norm_num) h1
    rw [if_pos h1]
    exact ⟨by simp [h1], by simp [hm, not_lt.mpr h1], by simp [hl, not_lt.mpr h2]⟩
  · rw [if_neg (not_le.mpr h1)]
    rcases le_or_lt (5 : Rat) r with h2 | h2
    · rw [if_pos h2]
      exact ⟨by simp [Ne.symm hm, not_le.mpr h1], by simp [h2, h1],
        by simp [ml, not_lt.mpr h2]⟩
    · rw [if_neg (not_le.mpr h2)]
      have h3 : r < 7.5 := lt_trans h2 (by norm_num)
      exact ⟨by simp [Ne.symm hl, not_le.mpr h3],
        by simp [Ne.symm ml, not_le.mpr h2], by simp [h2]⟩

/-! ## Claim theorems -/

/-- C1: For every key K, the cache decorator's fetchByKey
(`CacheAdapter.SearchMovie` for titles, `RedisCacheAdapter.GetMovieByID`
for ids) returns the stored entity with no error and without calling the
wrapped repository whenever the store holds an entry for K whose age is
strictly less than the TTL; otherwise (entry absent or age ≥ TTL) it calls
the wrapped repository's fetch and, on success, writes the entity
timestamped now into the store at K (overwriting any prior entry) and
returns that entity.  For the Redis variant "stored entity" means a
marshalled movie and the backend is fault-free; its stored timestamp is
the Redis expiry `now + ttl`. -/
theorem c1_read_through_cache :
    (∀ (a : CacheAdapter) (next : String → Except GoError Movie) (now : Nat)
        (title : String) (e : CacheEntry),
        a.cache title = some e → now - e.createdAt < a.ttl →
        a.searchMovie next now title = ⟨.ok e.movie, a.cache, false⟩)
    ∧
    (∀ (a : CacheAdapter) (next : String → Except GoError Movie) (now : Nat)
        (title : String),
        (∀ e, a.cache title = some e → a.ttl ≤ now - e.createdAt) →
        (a.searchMovie next now title).nextCalled = true
        ∧ ∀ m, next title = .ok m →
            a.searchMovie next now title =
              ⟨.ok m, Function.update a.cache title (some ⟨m, now⟩), true⟩)
    ∧
    (∀ (st : RedisStore) (ttl : Nat) (next : Int → Except GoError Movie)
        (now : Nat) (id : Int) (m : Movie) (t : Nat),
        st (movieKey id) = some ⟨.movie m, t⟩ → now < t →
        RedisCacheAdapter.getMovieByID st ttl noFaults next now id = ⟨.ok m, st, false⟩)
    ∧
    (∀ (st : RedisStore) (ttl : Nat) (next : Int → Except GoError Movie)
        (now : Nat) (id : Int),
        (∀ e, st (movieKey id) = some e → e.expireAt ≤ now) →
        (RedisCacheAdapter.getMovieByID st ttl noFaults next now id).nextCalled = true
        ∧ ∀ m, next id = .ok m →
            RedisCacheAdapter.getMovieByID st ttl noFaults next now id =
              ⟨.ok m, Function.update st (movieKey id) (some ⟨.movie m, now + ttl⟩), true⟩) := by
  refine ⟨searchMovie_hit, ?_, getMovieByID_hit, ?_⟩
  · intro a next now title hmiss
    exact ⟨searchMovie_miss_called a next now title hmiss,
      fun m hm => searchMovie_miss_ok a next now title m hmiss hm⟩
  · intro st ttl next now id hmiss
    exact ⟨getMovieByID_miss_called st ttl noFaults next now id hmiss,
      fun m hm => getMovieByID_miss_ok st ttl next now id m hmiss hm⟩

/-- Witness for C1: concrete hit and miss instances of both decorators. -/
theorem c1_read_through_cache_witness :
    (testAdapter.searchMovie (fun _ => .error .notFound) 3 "Inception"
        = ⟨.ok testMovie, testAdapter.cache, false⟩)
    ∧ ((emptyAdapter.searchMovie (fun _ => .ok testMovie) 3 "Inception").nextCalled = true)
    ∧ (emptyAdapter.searchMovie (fun _ => .ok testMovie) 3 "Inception"
        = ⟨.ok testMovie, Function.update emptyAdapter.cache "Inception" (some ⟨testMovie, 3⟩), true⟩)
    ∧ (RedisCacheAdapter.getMovieByID testStore 5 noFaults (fun _ => .error .notFound) 3 27205
        = ⟨.ok testMovie, testStore, false⟩)
    ∧ ((RedisCacheAdapter.getMovieByID emptyStore 5 noFaults (fun _ => .ok testMovie) 3 27205).nextCalled = true)
    ∧ (RedisCacheAdapter.getMovieByID emptyStore 5 noFaults (fun _ => .ok testMovie) 3 27205
        = ⟨.ok testMovie, Function.update emptyStore (movieKey 27205) (some ⟨.movie testMovie, 3 + 5⟩), true⟩) := by
  refine ⟨c1_read_through_cache.1 testAdapter _ 3 "Inception" ⟨testMovie, 0⟩ (by decide) (by decide),
    (c1_read_through_cache.2.1 emptyAdapter (fun _ => .ok testMovie) 3 "Inception"
      (fun _e he => nomatch he)).1,
    (c1_read_through_cache.2.1 emptyAdapter (fun _ => .ok testMovie) 3 "Inception"
      (fun _e he => nomatch he)).2 testMovie rfl,
    c1_read_through_cache.2.2.1 testStore 5 _ 3 27205 testMovie 5 (by decide) (by decide),
    (c1_read_through_cache.2.2.2 emptyStore 5 (fun _ => .ok testMovie) 3 27205
      (fun _e he => nomatch he)).1,
    (c1_read_through_cache.2.2.2 emptyStore 5 (fun _ => .ok testMovie) 3 27205
      (fun _e he => nomatch he)).2 testMovie rfl⟩

/-- C2: For every key K, if the wrapped repository's fetch of K returns an
error, the cache decorator's fetchByKey returns that same error unchanged
and writes nothing to the cache store, so an immediately following fetch
of K (at the same or any later instant, with any provider) calls the
wrapped repository again — no cached failure, no suppression window. -/
theorem c2_errors_never_cached :
    (∀ (a : CacheAdapter) (next : String → Except GoError Movie) (now : Nat)
        (title : String) (err : GoError),
        (∀ e, a.cache title = some e → a.ttl ≤ now - e.createdAt) →
        next title = .error err →
        a.searchMovie next now title = ⟨.error err, a.cache, true⟩
        ∧ ∀ (next2 : String → Except GoError Movie) (now2 : Nat), now ≤ now2 →
            (a.searchMovie next2 now2 title).nextCalled = true)
    ∧
    (∀ (st : RedisStore) (ttl : Nat) (faults : RedisFaults)
        (next : Int → Except GoError Movie) (now : Nat) (id : Int) (err : GoError),
        (∀ e, st (movieKey id) = some e → e.expireAt ≤ now) →
        next id = .error err →
        RedisCacheAdapter.getMovieByID st ttl faults next now id = ⟨.error err, st, true⟩
        ∧ ∀ (faults2 : RedisFaults) (next2 : Int → Except GoError Movie) (now2 : Nat),
            now ≤ now2 →
            (RedisCacheAdapter.getMovieByID st ttl faults2 next2 now2 id).nextCalled = true) := by
  constructor
  · intro a next now title err hmiss hm
    refine ⟨searchMovie_miss_error a next now title err hmiss hm, ?_⟩
    intro next2 now2 h12
    exact searchMovie_miss_called a next2 now2 title
      (miss_mono CacheEntry.createdAt (a.cache title) a.ttl now now2 h12 hmiss)
  · intro st ttl faults next now id err hmiss hm
    refine ⟨getMovieByID_miss_error st ttl faults next now id err hmiss hm, ?_⟩
    intro faults2 next2 now2 h12
    exact getMovieByID_miss_called st ttl faults2 next2 now2 id
      (fun e he => le_trans (hmiss e he) h12)

/-- Witness for C2: a failing provider under an empty cache propagates the
error, leaves the store empty, and the retry reaches the provider. -/
theorem c2_errors_never_cached_witness :
    (emptyAdapter.searchMovie (fun _ => .error (.providerFailure "down")) 3 "Inception"
        = ⟨.error (.providerFailure "down"), emptyAdapter.cache, true⟩)
    ∧ ((emptyAdapter.searchMovie (fun _ => .ok testMovie) 4 "Inception").nextCalled = true)
    ∧ (RedisCacheAdapter.getMovieByID emptyStore 5 noFaults
          (fun _ => .error .notFound) 3 27205 = ⟨.error .notFound, emptyStore, true⟩)
    ∧ ((RedisCacheAdapter.getMovieByID emptyStore 5 noFaults
          (fun _ => .ok testMovie) 4 27205).nextCalled = true) := by
  have h1 := c2_errors_never_cached.1 emptyAdapter
    (fun _ => .error (.providerFailure "down")) 3 "Inception" (.providerFailure "down")
    (fun _e he => nomatch he) rfl
  have h2 := c2_errors_never_cached.2 emptyStore 5 noFaults
    (fun _ => .error .notFound) 3 27205 .notFound (fun _e he => nomatch he) rfl
  exact ⟨h1.1, h1.2 (fun _ => .ok testMovie) 4 (by decide),
    h2.1, h2.2 noFaults (fun _ => .ok testMovie) 4 (by decide)⟩

/-- C3: For every key K, when the wrapped repository's update (or delete)
of K succeeds, the cache decorator removes the cache entry for K before
the mutation call returns (the returned keyspace maps `movie:<id>` to
nothing), so a subsequent fetch of K must invoke the wrapped repository
and cannot return pre-mutation data from the cache.  (The removal itself
succeeding is the fault-free case; an injected DEL fault is claim C5.) -/
theorem c3_invalidate_on_successful_mutation :
    (∀ (st : RedisStore) (faults : RedisFaults)
        (nextUpdate : Int → Movie → Except GoError Unit) (id : Int) (movie : Movie),
        faults.delFault = false → nextUpdate id movie = .ok () →
        RedisCacheAdapter.updateMovie st faults nextUpdate id movie
          = ⟨.ok (), Function.update st (movieKey id) none⟩
        ∧ Function.update st (movieKey id) none (movieKey id) = none
        ∧ ∀ (ttl now2 : Nat) (faults2 : RedisFaults) (next2 : Int → Except GoError Movie),
            (RedisCacheAdapter.getMovieByID (Function.update st (movieKey id) none)
              ttl faults2 next2 now2 id).nextCalled = true)
    ∧
    (∀ (st : RedisStore) (faults : RedisFaults)
        (nextDelete : Int → Except GoError Unit) (id : Int),
        faults.delFault = false → nextDelete id = .ok () →
        RedisCacheAdapter.deleteMovie st faults nextDelete id
          = ⟨.ok (), Function.update st (movieKey id) none⟩
        ∧ Function.update st (movieKey id) none (movieKey id) = none
        ∧ ∀ (ttl now2 : Nat) (faults2 : RedisFaults) (next2 : Int → Except GoError Movie),
            (RedisCacheAdapter.getMovieByID (Function.update st (movieKey id) none)
              ttl faults2 next2 now2 id).nextCalled = true) := by
  constructor
  · intro st faults nextUpdate id movie hdel hok
    refine ⟨by simp [RedisCacheAdapter.updateMovie, hok, hdel], by simp, ?_⟩
    intro ttl now2 faults2 next2
    exact getMovieByID_miss_called _ ttl faults2 next2 now2 id
      (fun e he => by simp at he)
  · intro st faults nextDelete id hdel hok
    refine ⟨by simp [RedisCacheAdapter.deleteMovie, hok, hdel], by simp, ?_⟩
    intro ttl now2 faults2 next2
    exact getMovieByID_miss_called _ ttl faults2 next2 now2 id
      (fun e he => by simp at he)

/-- Witness for C3: a successful update and delete on a populated store
remove the key, and the next fetch reaches the wrapped repository. -/
theorem c3_invalidate_on_successful_mutation_witness :
    (RedisCacheAdapter.updateMovie testStore noFaults (fun _ _ => .ok ()) 27205 testMovie2
        = ⟨.ok (), Function.update testStore (movieKey 27205) none⟩)
    ∧ (Function.update testStore (movieKey 27205) none (movieKey 27205) = none)
    ∧ ((RedisCacheAdapter.getMovieByID (Function.update testStore (movieKey 27205) none)
          5 noFaults (fun _ => .ok testMovie2) 1 27205).nextCalled = true)
    ∧ (RedisCacheAdapter.deleteMovie testStore noFaults (fun _ => .ok ()) 27205
        = ⟨.ok (), Function.update testStore (movieKey 27205) none⟩) := by
  have h1 := c3_invalidate_on_successful_mutation.1 testStore noFaults
    (fun _ _ => .ok ()) 27205 testMovie2 rfl rfl
  have h2 := c3_invalidate_on_successful_mutation.2 testStore noFaults
    (fun _ => .ok ()) 27205 rfl rfl
  exact ⟨h1.1, h1.2.1, h1.2.2 5 1 noFaults (fun _ => .ok testMovie2), h2.1⟩

/-- C4: For every key K, if the wrapped repository's update (or delete) of
K fails, the cache decorator returns that error immediately and leaves the
cache store completely unchanged, so a subsequent fetch of K within the
TTL is still served from cache with the pre-update value. -/
theorem c4_failed_mutation_leaves_cache :
    (∀ (st : RedisStore) (faults : RedisFaults)
        (nextUpdate : Int → Movie → Except GoError Unit) (id : Int) (movie : Movie)
        (err : GoError),
        nextUpdate id movie = .error err →
        RedisCacheAdapter.updateMovie st faults nextUpdate id movie = ⟨.error err, st⟩
        ∧ ∀ (ttl now : Nat) (next2 : Int → Except GoError Movie) (m : Movie) (t : Nat),
            st (movieKey id) = some ⟨.movie m, t⟩ → now < t →
            RedisCacheAdapter.getMovieByID st ttl noFaults next2 now id = ⟨.ok m, st, false⟩)
    ∧
    (∀ (st : RedisStore) (faults : RedisFaults)
        (nextDelete : Int → Except GoError Unit) (id : Int) (err : GoError),
        nextDelete id = .error err →
        RedisCacheAdapter.deleteMovie st faults nextDelete id = ⟨.error err, st⟩
        ∧ ∀ (ttl now : Nat) (next2 : Int → Except GoError Movie) (m : Movie) (t : Nat),
            st (movieKey id) = some ⟨.movie m, t⟩ → now < t →
            RedisCacheAdapter.getMovieByID st ttl noFaults next2 now id = ⟨.ok m, st, false⟩) := by
  constructor
  · intro st faults nextUpdate id movie err herr
    exact ⟨by simp [RedisCacheAdapter.updateMovie, herr],
      fun ttl now next2 m t he ht => getMovieByID_hit st ttl next2 now id m t he ht⟩
  · intro st faults nextDelete id err herr
    exact ⟨by simp [RedisCacheAdapter.deleteMovie, herr],
      fun ttl now next2 m t he ht => getMovieByID_hit st ttl next2 now id m t he ht⟩

/-- Witness for C4: a failing upstream update/delete propagates the error,
the populated store is untouched, and the next fetch is a cache hit with
the pre-update value. -/
theorem c4_failed_mutation_leaves_cache_witness :
    (RedisCacheAdapter.updateMovie testStore noFaults
        (fun _ _ => .error (.generic "db down")) 27205 testMovie2
        = ⟨.error (.generic "db down"), testStore⟩)
    ∧ (RedisCacheAdapter.getMovieByID testStore 5 noFaults
        (fun _ => .ok testMovie2) 3 27205 = ⟨.ok testMovie, testStore, false⟩)
    ∧ (RedisCacheAdapter.deleteMovie testStore noFaults
        (fun _ => .error (.generic "db down")) 27205
        = ⟨.error (.generic "db down"), testStore⟩) := by
  have h1 := c4_failed_mutation_leaves_cache.1 testStore noFaults
    (fun _ _ => .error (.generic "db down")) 27205 testMovie2 (.generic "db down") rfl
  have h2 := c4_failed_mutation_leaves_cache.2 testStore noFaults
    (fun _ => .error (.generic "db down")) 27205 (.generic "db down") rfl
  exact ⟨h1.1, h1.2 5 3 (fun _ => .ok testMovie2) testMovie 5 (by decide) (by decide), h2.1⟩

/-- C5: A fault in the cache backend never surfaces as a failure of the
overall call: after a successful delegated update/delete, a DEL failure is
only logged and the call still returns success; after a successful
upstream read, a marshal failure or a SET failure is only logged and
fetchByKey still returns the entity with no error. -/
theorem c5_backend_faults_nonfatal :
    (∀ (st : RedisStore) (faults : RedisFaults)
        (nextUpdate : Int → Movie → Except GoError Unit) (id : Int) (movie : Movie),
        faults.delFault = true → nextUpdate id movie = .ok () →
        RedisCacheAdapter.updateMovie st faults nextUpdate id movie = ⟨.ok (), st⟩)
    ∧
    (∀ (st : RedisStore) (faults : RedisFaults)
        (nextDelete : Int → Except GoError Unit) (id : Int),
        faults.delFault = true → nextDelete id = .ok () →
        RedisCacheAdapter.deleteMovie st faults nextDelete id = ⟨.ok (), st⟩)
    ∧
    (∀ (st : RedisStore) (ttl : Nat) (faults : RedisFaults)
        (next : Int → Except GoError Movie) (now : Nat) (id : Int) (m : Movie),
        (∀ e, st (movieKey id) = some e → e.expireAt ≤ now) →
        next id = .ok m → faults.marshalFault = true →
        RedisCacheAdapter.getMovieByID st ttl faults next now id = ⟨.ok m, st, true⟩)
    ∧
    (∀ (st : RedisStore) (ttl : Nat) (faults : RedisFaults)
        (next : Int → Except GoError Movie) (now : Nat) (id : Int) (m : Movie),
        (∀ e, st (movieKey id) = some e → e.expireAt ≤ now) →
        next id = .ok m → faults.marshalFault = false → faults.setFault = true →
        RedisCacheAdapter.getMovieByID st ttl faults next now id = ⟨.ok m, st, true⟩) := by
  refine ⟨?_, ?_, ?_, ?_⟩
  · intro st faults nextUpdate id movie hdel hok
    simp [RedisCacheAdapter.updateMovie, hok, hdel]
  · intro st faults nextDelete id hdel hok
    simp [RedisCacheAdapter.deleteMovie, hok, hdel]
  · intro st ttl faults next now id m hmiss hok hmf
    obtain ⟨er, hget⟩ := redisGet_miss st faults.getFault now (movieKey id) hmiss
    simp [RedisCacheAdapter.getMovieByID, hget, hok, marshalMovie, hmf]
  · intro st ttl faults next now id m hmiss hok hmf hsf
    obtain ⟨er, hget⟩ := redisGet_miss st faults.getFault now (movieKey id) hmiss
    simp [RedisCacheAdapter.getMovieByID, hget, hok, marshalMovie, hmf, hsf]

/-- Witness for C5: injected DEL, marshal and SET faults at concrete
states, all returning success. -/
theorem c5_backend_faults_nonfatal_witness :
    (RedisCacheAdapter.updateMovie testStore ⟨false, false, false, true⟩
        (fun _ _ => .ok ()) 27205 testMovie2 = ⟨.ok (), testStore⟩)
    ∧ (RedisCacheAdapter.deleteMovie testStore ⟨false, false, false, true⟩
        (fun _ => .ok ()) 27205 = ⟨.ok (), testStore⟩)
    ∧ (RedisCacheAdapter.getMovieByID emptyStore 5 ⟨false, true, false, false⟩
        (fun _ => .ok testMovie) 3 27205 = ⟨.ok testMovie, emptyStore, true⟩)
    ∧ (RedisCacheAdapter.getMovieByID emptyStore 5 ⟨false, false, true, false⟩
        (fun _ => .ok testMovie) 3 27205 = ⟨.ok testMovie, emptyStore, true⟩) :=
  ⟨c5_backend_faults_nonfatal.1 testStore ⟨false, false, false, true⟩
      (fun _ _ => .ok ()) 27205 testMovie2 rfl rfl,
    c5_backend_faults_nonfatal.2.1 testStore ⟨false, false, false, true⟩
      (fun _ => .ok ()) 27205 rfl rfl,
    c5_backend_faults_nonfatal.2.2.1 emptyStore 5 ⟨false, true, false, false⟩
      (fun _ => .ok testMovie) 3 27205 testMovie (fun _e he => nomatch he) rfl rfl,
    c5_backend_faults_nonfatal.2.2.2 emptyStore 5 ⟨false, false, true, false⟩
      (fun _ => .ok testMovie) 3 27205 testMovie (fun _e he => nomatch he) rfl rfl rfl⟩

/-- C6: The cache store is mutated by exactly two kinds of events — a
fetch inserting the marshalled entity at its key after a successful
upstream read, and a successful update/delete removing the entry at its
key — and createMovie and getAllMovies delegate directly to the wrapped
repository, never consulting, populating or invalidating the cache. -/
theorem c6_store_mutation_characterization :
    (∀ (st : RedisStore) (nextCreate : Movie → Except GoError Int) (movie : Movie),
        RedisCacheAdapter.createMovie st nextCreate movie = (nextCreate movie, st))
    ∧
    (∀ (st : RedisStore) (nextAll : Unit → Except GoError (List Movie)),
        RedisCacheAdapter.getAllMovies st nextAll = (nextAll (), st))
    ∧
    (∀ (st : RedisStore) (ttl : Nat) (faults : RedisFaults)
        (next : Int → Except GoError Movie) (now : Nat) (id : Int),
        (RedisCacheAdapter.getMovieByID st ttl faults next now id).store = st
        ∨ ∃ m, next id = .ok m
            ∧ (RedisCacheAdapter.getMovieByID st ttl faults next now id).store
              = Function.update st (movieKey id) (some ⟨.movie m, now + ttl⟩))
    ∧
    (∀ (st : RedisStore) (faults : RedisFaults)
        (nextUpdate : Int → Movie → Except GoError Unit) (id : Int) (movie : Movie),
        (RedisCacheAdapter.updateMovie st faults nextUpdate id movie).store = st
        ∨ (nextUpdate id movie = .ok ()
            ∧ (RedisCacheAdapter.updateMovie st faults nextUpdate id movie).store
              = Function.update st (movieKey id) none))
    ∧
    (∀ (st : RedisStore) (faults : RedisFaults)
        (nextDelete : Int → Except GoError Unit) (id : Int),
        (RedisCacheAdapter.deleteMovie st faults nextDelete id).store = st
        ∨ (nextDelete id = .ok ()
            ∧ (RedisCacheAdapter.deleteMovie st faults nextDelete id).store
              = Function.update st (movieKey id) none))
    ∧
    (∀ (a : CacheAdapter) (next : String → Except GoError Movie) (now : Nat)
        (title : String),
        (a.searchMovie next now title).cache = a.cache
        ∨ ∃ m, next title = .ok m
            ∧ (a.searchMovie next now title).cache
              = Function.update a.cache title (some ⟨m, now⟩)) := by
  refine ⟨fun _ _ _ => rfl, fun _ _ => rfl, ?_, ?_, ?_, ?_⟩
  · intro st ttl faults next now id
    cases hget : redisGet st faults.getFault now (movieKey id) with
    | ok b =>
      cases hub : unmarshalMovie b with
      | some m => left; simp [RedisCacheAdapter.getMovieByID, hget, hub]
      | none =>
        cases hn : next id with
        | error e => left; simp [RedisCacheAdapter.getMovieByID, hget, hub, hn]
        | ok m =>
          cases hmf : faults.marshalFault with
          | true =>
            left
            simp [RedisCacheAdapter.getMovieByID, hget, hub, hn, marshalMovie, hmf]
          | false =>
            cases hsf : faults.setFault with
            | true =>
              left
              simp [RedisCacheAdapter.getMovieByID, hget, hub, hn, marshalMovie, hmf, hsf]
            | false =>
              right
              exact ⟨m, rfl,
                by simp [RedisCacheAdapter.getMovieByID, hget, hub, hn, marshalMovie, hmf, hsf]⟩
    | error er =>
      cases hn : next id with
      | error e => left; simp [RedisCacheAdapter.getMovieByID, hget, hn]
      | ok m =>
        cases hmf : faults.marshalFault with
        | true => left; simp [RedisCacheAdapter.getMovieByID, hget, hn, marshalMovie, hmf]
        | false =>
          cases hsf : faults.setFault with
          | true =>
            left
            simp [RedisCacheAdapter.getMovieByID, hget, hn, marshalMovie, hmf, hsf]
          | false =>
            right
            exact ⟨m, rfl,
              by simp [RedisCacheAdapter.getMovieByID, hget, hn, marshalMovie, hmf, hsf]⟩
  · intro st faults nextUpdate id movie
    cases hn : nextUpdate id movie with
    | error e => left; simp [RedisCacheAdapter.updateMovie, hn]
    | ok u =>
      cases hdf : faults.delFault with
      | true => left; simp [RedisCacheAdapter.updateMovie, hn, hdf]
      | false =>
        right
        exact ⟨rfl, by simp [RedisCacheAdapter.updateMovie, hn, hdf]⟩
  · intro st faults nextDelete id
    cases hn : nextDelete id with
    | error e => left; simp [RedisCacheAdapter.deleteMovie, hn]
    | ok u =>
      cases hdf : faults.delFault with
      | true => left; simp [RedisCacheAdapter.deleteMovie, hn, hdf]
      | false =>
        right
        exact ⟨rfl, by simp [RedisCacheAdapter.deleteMovie, hn, hdf]⟩
  · intro a next now title
    cases hc : a.cache title with
    | some e =>
      cases hf : decide (now - e.createdAt < a.ttl) with
      | true =>
        left
        simp [CacheAdapter.searchMovie, hc, of_decide_eq_true hf]
      | false =>
        cases hn : next title with
        | error err =>
          left
          simp [CacheAdapter.searchMovie, hc, of_decide_eq_false hf, hn]
        | ok m =>
          right
          exact ⟨m, rfl, by simp [CacheAdapter.searchMovie, hc, of_decide_eq_false hf, hn]⟩
    | none =>
      cases hn : next title with
      | error err => left; simp [CacheAdapter.searchMovie, hc, hn]
      | ok m => right; exact ⟨m, rfl, by simp [CacheAdapter.searchMovie, hc, hn]⟩

/-- C8: For every movie successfully returned by the provider,
`MovieService.GetMovie` returns a result containing all of the movie's
fields unchanged plus an advice string determined solely by the numeric
rating with fixed thresholds: the favorable string exactly when
rating ≥ 7.5, the neutral string exactly when 5.0 ≤ rating < 7.5, and the
unfavorable string exactly when rating < 5.0; if the provider returns an
error, `GetMovie` returns that error and no data. -/
theorem c8_get_movie_advice :
    ∀ (provider : String → Except GoError Movie) (title : String),
      (∀ err, provider title = .error err →
          MovieService.getMovie provider title = .error err)
      ∧ ∀ m, provider title = .ok m →
          MovieService.getMovie provider title = .ok ⟨m, adviceFor m.rating⟩
          ∧ (adviceFor m.rating = adviceHigh ↔ 7.5 ≤ m.rating)
          ∧ (adviceFor m.rating = adviceMid ↔ 5 ≤ m.rating ∧ m.rating < 7.5)
          ∧ (adviceFor m.rating = adviceLow ↔ m.rating < 5) := by
  intro provider title
  constructor
  · intro err herr
    simp [MovieService.getMovie, herr]
  · intro m hm
    exact ⟨by simp [MovieService.getMovie, hm], (adviceFor_spec m.rating).1,
      (adviceFor_spec m.rating).2.1, (adviceFor_spec m.rating).2.2⟩

/-- Witness for C8: a failing provider propagates its error; a provider
returning the rating-8 `testMovie` yields it with the favorable advice. -/
theorem c8_get_movie_advice_witness :
    (MovieService.getMovie (fun _ => .error .notFound) "Inception" = .error .notFound)
    ∧ (MovieService.getMovie (fun _ => .ok testMovie) "Inception"
        = .ok ⟨testMovie, adviceFor testMovie.rating⟩)
    ∧ (adviceFor testMovie.rating = adviceHigh ↔ 7.5 ≤ testMovie.rating) :=
  ⟨(c8_get_movie_advice (fun _ => .error .notFound) "Inception").1 .notFound rfl,
    ((c8_get_movie_advice (fun _ => .ok testMovie) "Inception").2 testMovie rfl).1,
    ((c8_get_movie_advice (fun _ => .ok testMovie) "Inception").2 testMovie rfl).2.1⟩

/-- C9 counterexample: the claim says both repository realizations fail
with the ProviderFailure condition for network/transport faults, but
`PostgresAdapter.GetMovieByID` returns a storage-layer transport error
unchanged — as the raw (generic) error, not wrapped in
`errs.ErrProviderFailure`. -/
theorem c9_counterexample_postgres_transport :
    PostgresAdapter.getMovieByID (.pgError "dial tcp: connection refused")
      = .error (.generic "dial tcp: connection refused")
    ∧ isProviderFailureErr
        (PostgresAdapter.getMovieByID (.pgError "dial tcp: connection refused")) = false :=
  ⟨rfl, rfl⟩

/-- C9 (amended): both realizations' fetchByKey fail with NotFound exactly
when no record matches the key (TMDb on HTTP 404 or an empty
search-results list, Postgres when the query matches no row); the TMDb
adapter classifies transport faults, non-200 statuses and response-decode
failures as ProviderFailure, while the Postgres adapter propagates
storage-layer faults unchanged (as the raw error, not reclassified); all
other conditions propagate unchanged. -/
theorem c9_error_classification :
    (∀ o : HttpOutcome, TMDbAdapter.searchByName o = .error .notFound ↔
        ((∃ body, o = .response 404 body) ∨ o = .response 200 (.ok [])))
    ∧ (∀ msg, TMDbAdapter.searchByName (.transportError msg)
        = .error (.providerFailure msg))
    ∧ (∀ status body, status ≠ 404 → status ≠ 200 →
        isProviderFailureErr (TMDbAdapter.searchByName (.response status body)) = true)
    ∧ (∀ msg,
        isProviderFailureErr (TMDbAdapter.searchByName (.response 200 (.error msg))) = true)
    ∧ (∀ r rest, TMDbAdapter.searchByName (.response 200 (.ok (r :: rest))) = .ok r)
    ∧ (∀ o : PgOutcome, PostgresAdapter.getMovieByID o = .error .notFound ↔ o = .noRows)
    ∧ (∀ msg, PostgresAdapter.getMovieByID (.pgError msg) = .error (.generic msg))
    ∧ (∀ m recs, PostgresAdapter.getMovieByID (.row m recs)
        = .ok { m with recommendations := recs.splitOn "," }) := by
  refine ⟨?_, fun msg => rfl, ?_, fun msg => rfl, fun r rest => rfl, ?_,
    fun msg => rfl, fun m recs => rfl⟩
  · intro o
    cases o with
    | transportError msg => simp [TMDbAdapter.searchByName]
    | response status body =>
      by_cases h404 : status = 404
      · subst h404
        simp [TMDbAdapter.searchByName]
      · by_cases h200 : status = 200
        · subst h200
          cases body with
          | error msg => simp [TMDbAdapter.searchByName, h404]
          | ok results =>
            cases results with
            | nil => simp [TMDbAdapter.searchByName, h404]
            | cons r rest => simp [TMDbAdapter.searchByName, h404]
        · simp [TMDbAdapter.searchByName, h404, h200]
  · intro status body h404 h200
    simp [TMDbAdapter.searchByName, h404, h200, isProviderFailureErr]
  · intro o
    cases o with
    | noRows => simp [PostgresAdapter.getMovieByID]
    | pgError msg => simp [PostgresAdapter.getMovieByID]
    | row m recs => simp [PostgresAdapter.getMovieByID]

/-- Witness for C9 (amended): a 500 status is classified as
ProviderFailure. -/
theorem c9_error_classification_witness :
    isProviderFailureErr
      (TMDbAdapter.searchByName (.response 500 (.ok []))) = true :=
  c9_error_classification.2.2.1 500 (.ok []) (by decide) (by decide)

/-- C10: For every movie id whose cached value exists (and is fresh, with
a working GET) but fails JSON decoding, `RedisCacheAdapter.GetMovieByID`
silently treats the corrupt entry as a cache miss: it calls the wrapped
repository and returns that result, and the decode failure is never
surfaced as an error to the caller. -/
theorem c10_corrupt_entry_is_silent_miss :
    ∀ (st : RedisStore) (ttl : Nat) (faults : RedisFaults)
      (next : Int → Except GoError Movie) (now : Nat) (id : Int) (s : String) (t : Nat),
      st (movieKey id) = some ⟨.corrupt s, t⟩ → now < t → faults.getFault = false →
      (RedisCacheAdapter.getMovieByID st ttl faults next now id).nextCalled = true
      ∧ (RedisCacheAdapter.getMovieByID st ttl faults next now id).result = next id := by
  intro st ttl faults next now id s t he ht hgf
  have hget : redisGet st faults.getFault now (movieKey id) = .ok (.corrupt s) := by
    simp [redisGet, hgf, he, ht]
  cases hn : next id with
  | error err =>
    constructor <;> simp [RedisCacheAdapter.getMovieByID, hget, unmarshalMovie, hn]
  | ok m =>
    cases hmf : faults.marshalFault with
    | true =>
      constructor <;>
        simp [RedisCacheAdapter.getMovieByID, hget, unmarshalMovie, hn, marshalMovie, hmf]
    | false =>
      cases hsf : faults.setFault with
      | true =>
        constructor <;>
          simp [RedisCacheAdapter.getMovieByID, hget, unmarshalMovie, hn,
            marshalMovie, hmf, hsf]
      | false =>
        constructor <;>
          simp [RedisCacheAdapter.getMovieByID, hget, unmarshalMovie, hn,
            marshalMovie, hmf, hsf]

/-- Witness for C10: a fresh corrupt payload under `movie:27205` makes the
fetch call the wrapped repository and return its result. -/
theorem c10_corrupt_entry_is_silent_miss_witness :
    ((RedisCacheAdapter.getMovieByID corruptStore 5 noFaults
        (fun _ => .ok testMovie2) 3 27205).nextCalled = true)
    ∧ ((RedisCacheAdapter.getMovieByID corruptStore 5 noFaults
        (fun _ => .ok testMovie2) 3 27205).result = .ok testMovie2) :=
  c10_corrupt_entry_is_silent_miss corruptStore 5 noFaults (fun _ => .ok testMovie2)
    3 27205 "not valid json" 5 (by decide) (by decide) rfl

/-- Summing the goroutine weights after updating one goroutine's program
counter splits off that goroutine. -/
theorem sum_weight_update {n : Nat} (f : Fin n → TStat) (i : Fin n) (v : TStat) :
    ∑ j, (Function.update f i v j).weight
      = v.weight + ∑ j in Finset.univ \ {i}, (f j).weight := by
  have e1 : (fun j => (Function.update f i v j).weight)
      = Function.update (fun k => (f k).weight) i v.weight := by
    funext j
    by_cases hj : j = i
    · subst hj; simp
    · simp [Function.update_noteq hj]
  calc ∑ j, (Function.update f i v j).weight
      = ∑ j, Function.update (fun k => (f k).weight) i v.weight j := by rw [e1]
    _ = v.weight + ∑ j in Finset.univ \ {i}, (f j).weight :=
        Finset.sum_update_of_mem (Finset.mem_univ i) _ _

/-- The total goroutine weight is at most the number of goroutines. -/
theorem sum_weight_le {n : Nat} (f : Fin n → TStat) : ∑ i, (f i).weight ≤ n := by
  calc ∑ i, (f i).weight ≤ ∑ _i : Fin n, 1 :=
        Finset.sum_le_sum (fun i _ => by cases f i <;> simp [TStat.weight])
    _ = n := by simp

/-- Each interleaving step keeps the provider-call counter bounded by the
total goroutine weight. -/
theorem concStep_calls_le {n : Nat} {next : String → Except GoError Movie}
    {ttl now : Nat} {key : String} {s s2 : ConcState n}
    (h : ConcStep next ttl now key s s2)
    (hs : s.calls ≤ ∑ i, (s.threads i).weight) :
    s2.calls ≤ ∑ i, (s2.threads i).weight := by
  cases h with
  | readHit i e hi he hf =>
    have h1 := Finset.sum_eq_add_sum_diff_singleton (Finset.mem_univ i)
      (fun j => (s.threads j).weight)
    rw [h1, hi] at hs
    rw [sum_weight_update]
    simp only [TStat.weight] at hs ⊢
    omega
  | readMiss i hi hm =>
    have h1 := Finset.sum_eq_add_sum_diff_singleton (Finset.mem_univ i)
      (fun j => (s.threads j).weight)
    rw [h1, hi] at hs
    rw [sum_weight_update]
    simp only [TStat.weight] at hs ⊢
    omega
  | fetchOk i m hi hn =>
    have h1 := Finset.sum_eq_add_sum_diff_singleton (Finset.mem_univ i)
      (fun j => (s.threads j).weight)
    rw [h1, hi] at hs
    rw [sum_weight_update]
    simp only [TStat.weight] at hs ⊢
    omega
  | fetchErr i e hi hn =>
    have h1 := Finset.sum_eq_add_sum_diff_singleton (Finset.mem_univ i)
      (fun j => (s.threads j).weight)
    rw [h1, hi] at hs
    rw [sum_weight_update]
    simp only [TStat.weight] at hs ⊢
    omega
  | writeBack i m hi =>
    have h1 := Finset.sum_eq_add_sum_diff_singleton (Finset.mem_univ i)
      (fun j => (s.threads j).weight)
    rw [h1, hi] at hs
    rw [sum_weight_update]
    simp only [TStat.weight] at hs ⊢
    omega

/-- Along any interleaving from the initial state, the provider-call
counter stays bounded by the total goroutine weight. -/
theorem concTrace_calls {n : Nat} {next : String → Except GoError Movie}
    {ttl now : Nat} {key : String} {final : ConcState n}
    (h : Relation.ReflTransGen (ConcStep next ttl now key) (ConcState.init n) final) :
    final.calls ≤ ∑ i, (final.threads i).weight := by
  induction h with
  | refl => exact Nat.zero_le _
  | tail hab hbc ih => exact concStep_calls_le hbc ih

/-- Each interleaving step preserves `ConcInv` when the provider answers
the key with `m`. -/
theorem concStep_inv {n : Nat} {next : String → Except GoError Movie}
    {ttl now : Nat} {key : String} {s s2 : ConcState n} (m : Movie)
    (hnext : next key = .ok m)
    (h : ConcStep next ttl now key s s2) (hs : ConcInv m now key s) :
    ConcInv m now key s2 := by
  obtain ⟨hc, hg, hd⟩ := hs
  cases h with
  | readHit i e hi he hf =>
    have he2 : (⟨m, now⟩ : CacheEntry) = e := by
      rcases hc with h0 | h0
      · rw [h0] at he; cases he
      · rw [h0] at he; cases he; rfl
    refine ⟨hc, ?_, ?_⟩
    · intro i2 m2 h2
      dsimp only at h2 ⊢
      by_cases hii : i2 = i
      · subst hii; rw [Function.update_same] at h2; cases h2
      · rw [Function.update_noteq hii] at h2; exact hg i2 m2 h2
    · intro i2 r h2
      dsimp only at h2 ⊢
      by_cases hii : i2 = i
      · subst hii
        rw [Function.update_same] at h2
        cases h2
        exact ⟨by rw [he, ← he2], by rw [← he2]⟩
      · rw [Function.update_noteq hii] at h2; exact hd i2 r h2
  | readMiss i hi hm =>
    refine ⟨hc, ?_, ?_⟩
    · intro i2 m2 h2
      dsimp only at h2 ⊢
      by_cases hii : i2 = i
      · subst hii; rw [Function.update_same] at h2; cases h2
      · rw [Function.update_noteq hii] at h2; exact hg i2 m2 h2
    · intro i2 r h2
      dsimp only at h2 ⊢
      by_cases hii : i2 = i
      · subst hii; rw [Function.update_same] at h2; cases h2
      · rw [Function.update_noteq hii] at h2; exact hd i2 r h2
  | fetchOk i m2 hi hn =>
    rw [hnext] at hn
    cases hn
    refine ⟨hc, ?_, ?_⟩
    · intro i2 m3 h2
      dsimp only at h2 ⊢
      by_cases hii : i2 = i
      · subst hii; rw [Function.update_same] at h2; cases h2; rfl
      · rw [Function.update_noteq hii] at h2; exact hg i2 m3 h2
    · intro i2 r h2
      dsimp only at h2 ⊢
      by_cases hii : i2 = i
      · subst hii; rw [Function.update_same] at h2; cases h2
      · rw [Function.update_noteq hii] at h2; exact hd i2 r h2
  | fetchErr i e hi hn =>
    rw [hnext] at hn
    cases hn
  | writeBack i m2 hi =>
    have hm2 : m2 = m := hg i m2 hi
    subst hm2
    refine ⟨Or.inr (Function.update_same key _ _), ?_, ?_⟩
    · intro i2 m3 h2
      dsimp only at h2 ⊢
      by_cases hii : i2 = i
      · subst hii; rw [Function.update_same] at h2; cases h2
      · rw [Function.update_noteq hii] at h2; exact hg i2 m3 h2
    · intro i2 r h2
      dsimp only at h2 ⊢
      by_cases hii : i2 = i
      · subst hii
        rw [Function.update_same] at h2
        cases h2
        exact ⟨Function.update_same key _ _, rfl⟩
      · rw [Function.update_noteq hii] at h2
        exact ⟨Function.update_same key _ _, (hd i2 r h2).2⟩

/-- Along any interleaving from the initial state, `ConcInv` holds when
the provider answers the key with `m`. -/
theorem concTrace_inv {n : Nat} {next : String → Except GoError Movie}
    {ttl now : Nat} {key : String} {final : ConcState n} (m : Movie)
    (hnext : next key = .ok m)
    (h : Relation.ReflTransGen (ConcStep next ttl now key) (ConcState.init n) final) :
    ConcInv m now key final := by
  induction h with
  | refl =>
    refine ⟨Or.inl rfl, ?_, ?_⟩
    · intro i m2 h2
      exact absurd h2 (by simp [ConcState.init])
    · intro i r h2
      exact absurd h2 (by simp [ConcState.init])
  | tail hab hbc ih => exact concStep_inv m hnext hbc ih

/-- C7: The mutual-exclusion lock is held only for the duration of each
individual map access and never across the call to the wrapped repository
— modelled by making the locked read, the un-locked provider call and the
locked write three separately-atomic interleaved steps — and under N
concurrent fetches of an uncached key K each fetch may call the wrapped
repository but at most N calls occur in any interleaving, while once all
goroutines have returned (with the provider answering m) the cache holds
exactly the one entry `{m, now}` at K and every goroutine returned m. -/
theorem c7_concurrent_fetch_interleavings {n : Nat}
    (next : String → Except GoError Movie) (ttl now : Nat) (key : String)
    (final : ConcState n)
    (h : Relation.ReflTransGen (ConcStep next ttl now key) (ConcState.init n) final) :
    final.calls ≤ n
    ∧ ∀ m, next key = .ok m →
        (∀ i, ∃ r, final.threads i = .done r) →
        0 < n →
        final.cache key = some ⟨m, now⟩
        ∧ ∀ i r, final.threads i = .done r → r = .ok m := by
  constructor
  · exact le_trans (concTrace_calls h) (sum_weight_le final.threads)
  · intro m hm hdone hn
    have hinv := concTrace_inv m hm h
    obtain ⟨r, hr⟩ := hdone ⟨0, hn⟩
    exact ⟨(hinv.2.2 ⟨0, hn⟩ r hr).1, fun i r2 h2 => (hinv.2.2 i r2 h2).2⟩

/-- Witness for C7: the explicit one-goroutine interleaving
read-miss → fetch → write-back ends with one provider call and the entry
stored at "Inception". -/
theorem c7_concurrent_fetch_interleavings_witness :
    c7FinalState.calls ≤ 1
    ∧ c7FinalState.cache "Inception" = some ⟨testMovie, 0⟩ := by
  have s1 : ConcStep (fun _ => .ok testMovie) 5 0 "Inception" c7S0 c7S1 :=
    ConcStep.readMiss c7S0 0 rfl (fun _e he => nomatch he)
  have s2 : ConcStep (fun _ => .ok testMovie) 5 0 "Inception" c7S1 c7S2 :=
    ConcStep.fetchOk c7S1 0 testMovie (by simp [c7S1, c7S0, ConcState.init]) rfl
  have s3 : ConcStep (fun _ => .ok testMovie) 5 0 "Inception" c7S2 c7FinalState :=
    ConcStep.writeBack c7S2 0 testMovie (by simp [c7S2])
  have htr : Relation.ReflTransGen (ConcStep (fun _ => .ok testMovie) 5 0 "Inception")
      (ConcState.init 1) c7FinalState :=
    Relation.ReflTransGen.tail
      (Relation.ReflTransGen.tail (Relation.ReflTransGen.tail .refl s1) s2) s3
  have h := c7_concurrent_fetch_interleavings (fun _ => .ok testMovie) 5 0 "Inception"
    c7FinalState htr
  have h2 := h.2 testMovie rfl
    (fun i => ⟨.ok testMovie, by rw [Fin.eq_zero i]; simp [c7FinalState]⟩)
    (by decide)
  exact ⟨h.1, h2.1⟩

end MoviePlanner
